import Mathlib

/-!
Verification of the Cerberus repository core: the CSRF token service
(src/server/security.ts, generateCsrfToken / validateCsrfToken) and the
ownership-scoped data-access layer (src/server/storage.ts over the tables of
the shared drizzle schema).

The embedding is shallow: JavaScript strings become Lean `String`, the
millisecond clock (Date.now()) becomes an explicit parameter, the per-call
environment read of process.env.SESSION_SECRET becomes an `Option String`
parameter, HMAC-SHA256 (a crypto primitive external to the repository) becomes
an abstract function parameter, and the database tables become Lean lists with
the query predicates of storage.ts translated literally.  A function that can
throw (crypto.timingSafeEqual throws on buffers of different byte length)
returns `Except Unit`.
-/

namespace Cerberus

/-! ### JavaScript string and number primitives used by security.ts -/

/-- Numeric value of a decimal digit character, as in subtracting the code of
the character zero. -/
def digitVal (c : Char) : Nat := c.toNat - 48

/-- Value of a list of decimal digit characters read most-significant first,
as accumulated by a radix-10 positional fold. -/
def digitsToNat (l : List Char) : Nat := l.foldl (fun a c => 10 * a + digitVal c) 0

/-- Whitespace trimmed by JavaScript parseInt before the sign: the
ECMAScript WhiteSpace production (tab 0x09, vertical tab 0x0B, form feed
0x0C, space 0x20, no-break space 0xA0, zero-width no-break space 0xFEFF and
the Unicode space-separator category Zs: 0x1680, 0x2000 to 0x200A, 0x202F,
0x205F, 0x3000) together with the LineTerminator production (line feed 0x0A,
carriage return 0x0D, line separator 0x2028, paragraph separator 0x2029). -/
def isJsSpace (c : Char) : Bool :=
  c.toNat == 0x20 || c.toNat == 0x09 || c.toNat == 0x0A || c.toNat == 0x0D
  || c.toNat == 0x0B || c.toNat == 0x0C
  || c.toNat == 0xA0 || c.toNat == 0xFEFF
  || c.toNat == 0x1680 || (0x2000 <= c.toNat && c.toNat <= 0x200A)
  || c.toNat == 0x2028 || c.toNat == 0x2029
  || c.toNat == 0x202F || c.toNat == 0x205F || c.toNat == 0x3000

/-- Model of JavaScript parseInt(s, 10) on a list of characters: skip leading
whitespace, read one optional sign, then the longest prefix of decimal digits;
the result is NaN (here: none) when that prefix is empty. -/
def jsParseIntCore (l : List Char) : Option Int :=
  match l.dropWhile isJsSpace with
  | [] => none
  | c :: rest =>
    let sign : Int := if c = '-' then -1 else 1
    let l2 := if c = '-' || c = '+' then rest else c :: rest
    let ds := l2.takeWhile Char.isDigit
    if ds = [] then none else some (sign * (digitsToNat ds : Int))

/-- Model of JavaScript parseInt(s, 10). -/
def jsParseInt (s : String) : Option Int := jsParseIntCore s.data

/-- Digit-emitting loop of the decimal printer, with explicit fuel; models the
repeated divide-by-ten of Number.prototype.toString for a nonnegative
integer. -/
def natDigitsAux (fuel n : Nat) (acc : List Char) : List Char :=
  match fuel with
  | 0 => acc
  | fuel + 1 => if n = 0 then acc else natDigitsAux fuel (n / 10) (Nat.digitChar (n % 10) :: acc)

/-- Model of Date.now().toString(): the decimal rendering of a nonnegative
millisecond timestamp. -/
def natToString (n : Nat) : String := if n = 0 then "0" else ⟨natDigitsAux n n []⟩

/-- Model of JavaScript String.prototype.split with a one-character separator,
on lists of characters.  The empty string yields one empty field, exactly as
in JavaScript. -/
def splitOnChar (sep : Char) : List Char → List (List Char)
  | [] => [[]]
  | c :: rest =>
    if c = sep then [] :: splitOnChar sep rest
    else
      match splitOnChar sep rest with
      | [] => [[c]]
      | h :: t => (c :: h) :: t

/-- Model of JavaScript String.prototype.split with a one-character
separator. -/
def jsSplit (sep : Char) (s : String) : List String :=
  (splitOnChar sep s.data).map fun l => ⟨l⟩

/-- Model of crypto.timingSafeEqual applied to Buffer.from of two strings: it
throws (error) when the UTF-8 byte lengths differ, and otherwise reports
whether the byte sequences are equal. -/
def timingSafeEqual (a b : String) : Except Unit Bool :=
  if a.utf8ByteSize = b.utf8ByteSize then .ok (a == b) else .error ()

/-! ### The CSRF token service, from src/server/security.ts

Both functions read process.env.SESSION_SECRET on every call and fall back to
the string literal "default-secret" when the variable is unset or empty (the
JavaScript or-operator treats the empty string as falsy); the environment is
therefore a parameter of each call, as is the millisecond clock and the
HMAC-SHA256-hex primitive. -/

/-- The secret obtained from process.env.SESSION_SECRET with the
"default-secret" fallback of security.ts lines 291 and 305. -/
def envSecret (sessionSecret : Option String) : String :=
  match sessionSecret with
  | some s => if s = "" then "default-secret" else s
  | none => "default-secret"

/-- generateCsrfToken of src/server/security.ts (lines 290 to 296). -/
def generateCsrfToken (hmacSha256Hex : String → String → String)
    (env : Option String) (now : Nat) (sessionId : String) : String :=
  let secret := envSecret env
  let timestamp := natToString now
  let data := sessionId ++ ":" ++ timestamp
  let signature := hmacSha256Hex secret data
  timestamp ++ ":" ++ signature

/-- validateCsrfToken of src/server/security.ts (lines 298 to 317).  The
result is `.error ()` exactly when the underlying crypto.timingSafeEqual call
throws. -/
def validateCsrfToken (hmacSha256Hex : String → String → String)
    (env : Option String) (now : Nat) (token sessionId : String) : Except Unit Bool :=
  if token = "" then .ok false
  else
    match jsSplit ':' token with
    | [timestamp, signature] =>
      let secret := envSecret env
      match jsParseInt timestamp with
      | none => .ok false
      | some ts =>
        if (now : Int) - ts > 60 * 60 * 1000 then .ok false
        else
          let data := sessionId ++ ":" ++ timestamp
          let expectedSignature := hmacSha256Hex secret data
          timingSafeEqual signature expectedSignature
    | _ => .ok false

/-! ### Facts about the string primitives -/

theorem strData_append (a b : String) : (a ++ b).data = a.data ++ b.data := rfl

/-- Reading digits with a nonzero accumulator factors as a power of ten. -/
theorem foldl_digits_from (l : List Char) : ∀ a : Nat,
    l.foldl (fun a c => 10 * a + digitVal c) a = a * 10 ^ l.length + digitsToNat l := by
  induction l with
  | nil => intro a; simp [digitsToNat]
  | cons c l ih =>
    intro a
    simp only [List.foldl_cons, List.length_cons, digitsToNat, Nat.mul_zero, Nat.zero_add] at *
    rw [ih (10 * a + digitVal c), ih (digitVal c)]
    ring

/-- Positional reading of a digit list, one step. -/
theorem digitsToNat_cons (c : Char) (l : List Char) :
    digitsToNat (c :: l) = digitVal c * 10 ^ l.length + digitsToNat l := by
  have h := foldl_digits_from l (digitVal c)
  simp only [digitsToNat, List.foldl_cons, Nat.mul_zero, Nat.zero_add]
  exact h

theorem digitVal_digitChar {m : Nat} (h : m < 10) : digitVal (Nat.digitChar m) = m := by
  interval_cases m <;> decide

theorem isDigit_digitChar {m : Nat} (h : m < 10) : (Nat.digitChar m).isDigit = true := by
  interval_cases m <;> decide

/-- The digit loop prepends the decimal digits of n to the accumulator, in the
sense of positional value. -/
theorem digitsToNat_natDigitsAux : ∀ fuel n acc, n ≤ fuel →
    digitsToNat (natDigitsAux fuel n acc) = n * 10 ^ acc.length + digitsToNat acc := by
  intro fuel
  induction fuel with
  | zero =>
    intro n acc h
    interval_cases n
    simp [natDigitsAux]
  | succ fuel ih =>
    intro n acc h
    by_cases h0 : n = 0
    · subst h0; simp [natDigitsAux]
    · have hlt : n / 10 ≤ fuel := by
        have := Nat.div_lt_self (Nat.pos_of_ne_zero h0) (by norm_num : 1 < 10)
        omega
      have hmod : n % 10 < 10 := Nat.mod_lt _ (by norm_num)
      have hcons : digitsToNat (Nat.digitChar (n % 10) :: acc)
          = (n % 10) * 10 ^ acc.length + digitsToNat acc := by
        rw [digitsToNat_cons, digitVal_digitChar hmod]
      simp only [natDigitsAux, if_neg h0]
      rw [ih (n / 10) _ hlt, hcons]
      have hd := Nat.div_add_mod n 10
      simp only [List.length_cons]
      calc n / 10 * 10 ^ (acc.length + 1) + (n % 10 * 10 ^ acc.length + digitsToNat acc)
          = (10 * (n / 10) + n % 10) * 10 ^ acc.length + digitsToNat acc := by ring
        _ = n * 10 ^ acc.length + digitsToNat acc := by rw [hd]

theorem all_isDigit_natDigitsAux : ∀ fuel n acc, (∀ c ∈ acc, c.isDigit = true) →
    ∀ c ∈ natDigitsAux fuel n acc, c.isDigit = true := by
  intro fuel
  induction fuel with
  | zero => intro n acc h; simpa [natDigitsAux] using h
  | succ fuel ih =>
    intro n acc h
    by_cases h0 : n = 0
    · subst h0; simpa [natDigitsAux] using h
    · simp only [natDigitsAux, if_neg h0]
      apply ih
      intro c hc
      rcases List.mem_cons.mp hc with hc | hc
      · subst hc; exact isDigit_digitChar (Nat.mod_lt _ (by norm_num))
      · exact h c hc

/-- Every character of the decimal rendering is a digit. -/
theorem natToString_all_digits (n : Nat) : ∀ c ∈ (natToString n).data, c.isDigit = true := by
  by_cases h0 : n = 0
  · subst h0; intro c hc; simp [natToString] at hc; subst hc; decide
  · simp only [natToString, if_neg h0]
    exact all_isDigit_natDigitsAux n n [] (by intro c hc; cases hc)

/-- The decimal rendering reads back to its input. -/
theorem digitsToNat_natToString (n : Nat) : digitsToNat (natToString n).data = n := by
  by_cases h0 : n = 0
  · subst h0; decide
  · simp only [natToString, if_neg h0]
    have := digitsToNat_natDigitsAux n n [] (le_refl n)
    simpa [digitsToNat] using this

/-- The decimal rendering is never the empty string. -/
theorem natToString_ne_nil (n : Nat) : (natToString n).data ≠ [] := by
  intro h
  have h2 := digitsToNat_natToString n
  rw [h] at h2
  by_cases h0 : n = 0
  · subst h0; simp [natToString] at h
  · exact h0 (by simpa [digitsToNat] using h2.symm)

theorem isDigit_ne_minus {c : Char} (h : c.isDigit = true) : c ≠ '-' := by
  intro hc; subst hc; exact absurd h (by decide)

theorem isDigit_ne_plus {c : Char} (h : c.isDigit = true) : c ≠ '+' := by
  intro hc; subst hc; exact absurd h (by decide)

theorem isDigit_not_space {c : Char} (h : c.isDigit = true) : isJsSpace c = false := by
  simp [Char.isDigit] at h
  obtain ⟨h1, h2⟩ := h
  have hlo : 48 ≤ c.toNat := h1
  have hhi : c.toNat ≤ 57 := h2
  simp only [isJsSpace, Bool.or_eq_false_iff, Bool.and_eq_false_iff,
    beq_eq_false_iff_ne, ne_eq, decide_eq_false_iff_not, not_le]
  omega

theorem isDigit_ne_colon {c : Char} (h : c.isDigit = true) : c ≠ ':' := by
  intro hc; subst hc; exact absurd h (by decide)

theorem takeWhile_all {p : Char → Bool} : ∀ l : List Char, (∀ c ∈ l, p c = true) →
    l.takeWhile p = l := by
  intro l
  induction l with
  | nil => intro h; rfl
  | cons c rest ih =>
    intro h
    have hc := h c (by simp)
    simp [List.takeWhile_cons, hc, ih fun d hd => h d (by simp [hd])]

/-- parseInt on a nonempty all-digit list reads its positional value. -/
theorem jsParseIntCore_digits (c : Char) (rest : List Char)
    (h : ∀ d ∈ c :: rest, d.isDigit = true) :
    jsParseIntCore (c :: rest) = some (digitsToNat (c :: rest) : Int) := by
  have hc := h c (by simp)
  have hdw : (c :: rest).dropWhile isJsSpace = c :: rest := by
    simp [List.dropWhile_cons, isDigit_not_space hc]
  have htw : (c :: rest).takeWhile Char.isDigit = c :: rest := takeWhile_all _ h
  simp only [jsParseIntCore, hdw]
  simp [isDigit_ne_minus hc, isDigit_ne_plus hc, htw]

/-- Parsing the decimal rendering of a nonnegative timestamp recovers it. -/
theorem jsParseInt_natToString (n : Nat) : jsParseInt (natToString n) = some (n : Int) := by
  have hdig := natToString_all_digits n
  have hne := natToString_ne_nil n
  rcases hcr : (natToString n).data with _ | ⟨c, rest⟩
  · exact absurd hcr hne
  · have hall : ∀ d ∈ c :: rest, d.isDigit = true := by
      intro d hd; exact hdig d (by rw [hcr]; exact hd)
    have := jsParseIntCore_digits c rest hall
    rw [jsParseInt, hcr, this, ← hcr, digitsToNat_natToString]

/-! ### Facts about the split primitive -/

theorem splitOnChar_sepFree (sep : Char) : ∀ l : List Char, (∀ c ∈ l, c ≠ sep) →
    splitOnChar sep l = [l] := by
  intro l
  induction l with
  | nil => intro h; rfl
  | cons c rest ih =>
    intro h
    have hc : ¬ c = sep := h c (by simp)
    simp only [splitOnChar, if_neg hc, ih fun d hd => h d (by simp [hd])]

/-- Splitting a two-field string with separator-free fields yields the two
fields. -/
theorem splitOnChar_append (sep : Char) : ∀ A B : List Char,
    (∀ c ∈ A, c ≠ sep) → (∀ c ∈ B, c ≠ sep) →
    splitOnChar sep (A ++ sep :: B) = [A, B] := by
  intro A
  induction A with
  | nil =>
    intro B _ hB
    simp [splitOnChar, splitOnChar_sepFree sep B hB]
  | cons c A ih =>
    intro B hA hB
    have hc : ¬ c = sep := hA c (by simp)
    rw [List.cons_append]
    simp only [splitOnChar, if_neg hc, ih B (fun d hd => hA d (by simp [hd])) hB]

theorem jsSplit_two_fields (tsStr sig : String)
    (h1 : ∀ c ∈ tsStr.data, c ≠ ':') (h2 : ∀ c ∈ sig.data, c ≠ ':') :
    jsSplit ':' (tsStr ++ ":" ++ sig) = [tsStr, sig] := by
  have hdata : (tsStr ++ ":" ++ sig).data = tsStr.data ++ ':' :: sig.data := by
    rw [strData_append, strData_append]
    simp [List.append_assoc]
  rw [jsSplit, hdata, splitOnChar_append ':' _ _ h1 h2]
  rfl

theorem token_ne_empty (tsStr sig : String) : tsStr ++ ":" ++ sig ≠ "" := by
  intro h
  have : (tsStr ++ ":" ++ sig).data = ("" : String).data := by rw [h]
  rw [strData_append, strData_append] at this
  simp at this

/-! ### Evaluation helpers for validateCsrfToken -/

/-- Once the token splits into exactly two colon-separated fields, validation
reduces to the timestamp parse, the age check, and the signature
comparison. -/
theorem validate_eq_of_split (hmac : String → String → String) (env : Option String)
    (now : Nat) (token tsStr sig sessionId : String)
    (htok : token ≠ "") (hsplit : jsSplit ':' token = [tsStr, sig]) :
    validateCsrfToken hmac env now token sessionId =
      match jsParseInt tsStr with
      | none => .ok false
      | some ts =>
        if (now : Int) - ts > 60 * 60 * 1000 then .ok false
        else timingSafeEqual sig (hmac (envSecret env) (sessionId ++ ":" ++ tsStr)) := by
  unfold validateCsrfToken
  rw [if_neg htok, hsplit]

/-- A well-formed token made of a rendered timestamp and a colon-free
signature validates by comparing the signature with the recomputed HMAC. -/
theorem validate_wellformed (hmac : String → String → String) (env : Option String)
    (now ts : Nat) (sessionId sig : String)
    (hsig : ∀ c ∈ sig.data, c ≠ ':')
    (hage : ¬ ((now : Int) - ts > 60 * 60 * 1000)) :
    validateCsrfToken hmac env now (natToString ts ++ ":" ++ sig) sessionId =
      timingSafeEqual sig (hmac (envSecret env) (sessionId ++ ":" ++ natToString ts)) := by
  have hts : ∀ c ∈ (natToString ts).data, c ≠ ':' := fun c hc =>
    isDigit_ne_colon (natToString_all_digits ts c hc)
  rw [validate_eq_of_split hmac env now _ _ _ sessionId (token_ne_empty _ _)
    (jsSplit_two_fields _ _ hts hsig), jsParseInt_natToString ts]
  exact if_neg hage

theorem token_ne_of_split (token tsStr sig : String)
    (hsplit : jsSplit ':' token = [tsStr, sig]) : token ≠ "" := by
  intro h
  subst h
  have h0 : jsSplit ':' "" = [""] := rfl
  rw [h0] at hsplit
  have := congrArg List.length hsplit
  simp at this

/-- A token whose two-field split carries a parseable timestamp older than the
window is rejected before the signature is examined. -/
theorem validate_expired_aux (hmac : String → String → String) (env : Option String)
    (now : Nat) (token tsStr sig sessionId : String) (ts : Int)
    (hsplit : jsSplit ':' token = [tsStr, sig])
    (hparse : jsParseInt tsStr = some ts)
    (hage : (now : Int) - ts > 60 * 60 * 1000) :
    validateCsrfToken hmac env now token sessionId = .ok false := by
  rw [validate_eq_of_split hmac env now token tsStr sig sessionId
    (token_ne_of_split token tsStr sig hsplit) hsplit, hparse]
  exact if_pos hage

/-- A token that does not split into exactly two fields is rejected. -/
theorem validate_not_two_fields_aux (hmac : String → String → String) (env : Option String)
    (now : Nat) (token sessionId : String)
    (htok : token ≠ "") (h : ∀ tsStr sig, jsSplit ':' token ≠ [tsStr, sig]) :
    validateCsrfToken hmac env now token sessionId = .ok false := by
  unfold validateCsrfToken
  rw [if_neg htok]
  cases hs : jsSplit ':' token with
  | nil => rfl
  | cons a t =>
    cases t with
    | nil => rfl
    | cons b t2 =>
      cases t2 with
      | nil => exact absurd hs (h a b)
      | cons c t3 => rfl

end Cerberus

namespace Cerberus

/-! ### Claims about the CSRF token service -/

/-- C1 (amended): validateCsrfToken returns false, without throwing, when the
token is empty, when it does not split into exactly two colon-separated
fields, when its timestamp field does not parse as an integer, or when the
parsed timestamp is more than 3,600,000 ms before the clock; and when all
those checks pass it returns false for a signature that differs from the
recomputed HMAC, provided the supplied signature has the byte length of the
recomputed one.  (As originally stated the claim is false: the underlying
crypto.timingSafeEqual call throws when the byte lengths differ, see the
counterexample.) -/
theorem csrf_validate_fails_closed (hmac : String → String → String) (env : Option String)
    (now : Nat) (token sessionId : String) :
    (token = "" → validateCsrfToken hmac env now token sessionId = .ok false)
    ∧ ((jsSplit ':' token).length ≠ 2 →
        validateCsrfToken hmac env now token sessionId = .ok false)
    ∧ (∀ tsStr sig, jsSplit ':' token = [tsStr, sig] → jsParseInt tsStr = none →
        validateCsrfToken hmac env now token sessionId = .ok false)
    ∧ (∀ tsStr sig, ∀ ts : Int, jsSplit ':' token = [tsStr, sig] →
        jsParseInt tsStr = some ts → (now : Int) - ts > 60 * 60 * 1000 →
        validateCsrfToken hmac env now token sessionId = .ok false)
    ∧ (∀ tsStr sig, ∀ ts : Int, jsSplit ':' token = [tsStr, sig] →
        jsParseInt tsStr = some ts → ¬ ((now : Int) - ts > 60 * 60 * 1000) →
        sig.utf8ByteSize = (hmac (envSecret env) (sessionId ++ ":" ++ tsStr)).utf8ByteSize →
        sig ≠ hmac (envSecret env) (sessionId ++ ":" ++ tsStr) →
        validateCsrfToken hmac env now token sessionId = .ok false) := by
  refine ⟨?_, ?_, ?_, ?_, ?_⟩
  · intro h
    unfold validateCsrfToken
    rw [if_pos h]
  · intro h
    by_cases htok : token = ""
    · unfold validateCsrfToken; rw [if_pos htok]
    · refine validate_not_two_fields_aux hmac env now token sessionId htok ?_
      intro tsStr sig hcontra
      exact h (by rw [hcontra]; rfl)
  · intro tsStr sig hsplit hparse
    rw [validate_eq_of_split hmac env now token tsStr sig sessionId
      (token_ne_of_split token tsStr sig hsplit) hsplit, hparse]
  · intro tsStr sig ts hsplit hparse hage
    exact validate_expired_aux hmac env now token tsStr sig sessionId ts hsplit hparse hage
  · intro tsStr sig ts hsplit hparse hage hlen hne
    rw [validate_eq_of_split hmac env now token tsStr sig sessionId
      (token_ne_of_split token tsStr sig hsplit) hsplit, hparse]
    show (if (now : Int) - ts > 60 * 60 * 1000 then Except.ok false
      else timingSafeEqual sig (hmac (envSecret env) (sessionId ++ ":" ++ tsStr))) = .ok false
    rw [if_neg hage]
    unfold timingSafeEqual
    rw [if_pos hlen]
    simp [hne]

/-- Witness for C1 (amended): each fail-closed branch evaluated at a concrete
input. -/
theorem csrf_validate_fails_closed_witness :
    validateCsrfToken (fun _ _ => "aa") none 0 "" "sess" = .ok false
    ∧ validateCsrfToken (fun _ _ => "aa") none 0 "abc" "sess" = .ok false
    ∧ validateCsrfToken (fun _ _ => "aa") none 0 "x:y" "sess" = .ok false
    ∧ validateCsrfToken (fun _ _ => "aa") none 7200000 "0:y" "sess" = .ok false
    ∧ validateCsrfToken (fun _ _ => "aa") none 0 "0:bb" "sess" = .ok false :=
  ⟨(csrf_validate_fails_closed (fun _ _ => "aa") none 0 "" "sess").1 rfl,
   (csrf_validate_fails_closed (fun _ _ => "aa") none 0 "abc" "sess").2.1 (by decide),
   (csrf_validate_fails_closed (fun _ _ => "aa") none 0 "x:y" "sess").2.2.1
     "x" "y" (by decide) (by decide),
   (csrf_validate_fails_closed (fun _ _ => "aa") none 7200000 "0:y" "sess").2.2.2.1
     "0" "y" 0 (by decide) (by decide) (by decide),
   (csrf_validate_fails_closed (fun _ _ => "aa") none 0 "0:bb" "sess").2.2.2.2
     "0" "bb" 0 (by decide) (by decide) (by decide) (by decide) (by decide)⟩

/-- C1 counterexample: the claim says validateCsrfToken never throws, but on a
well-timed token whose signature field has a byte length different from the
recomputed HMAC signature, crypto.timingSafeEqual throws
(ERR_CRYPTO_TIMING_SAFE_EQUAL_LENGTH); here the one-byte signature "x" is
compared with a two-byte expected signature. -/
theorem csrf_validate_throws_cx :
    validateCsrfToken (fun _ _ => "aa") none 0 "0:x" "sess" = .error () := rfl

/-- C4: validating a freshly issued token against the same session succeeds:
for every non-empty session identifier, and every HMAC primitive whose output
contains no colon (as hex output does), validation of
generateCsrfToken(sessionId) at the issuance instant returns true. -/
theorem csrf_roundtrip_valid (hmac : String → String → String) (env : Option String)
    (now : Nat) (sessionId : String)
    (hsid : sessionId ≠ "")
    (hsig : ∀ c ∈ (hmac (envSecret env) (sessionId ++ ":" ++ natToString now)).data, c ≠ ':') :
    validateCsrfToken hmac env now (generateCsrfToken hmac env now sessionId) sessionId
      = .ok true := by
  calc validateCsrfToken hmac env now (generateCsrfToken hmac env now sessionId) sessionId
      = validateCsrfToken hmac env now
          (natToString now ++ ":" ++ hmac (envSecret env) (sessionId ++ ":" ++ natToString now))
          sessionId := rfl
    _ = timingSafeEqual (hmac (envSecret env) (sessionId ++ ":" ++ natToString now))
          (hmac (envSecret env) (sessionId ++ ":" ++ natToString now)) :=
        validate_wellformed hmac env now now sessionId _ hsig (by simp)
    _ = .ok true := by simp [timingSafeEqual]

/-- Witness for C4 at a concrete session and clock. -/
theorem csrf_roundtrip_valid_witness :
    validateCsrfToken (fun _ _ => "aa") none 0
      (generateCsrfToken (fun _ _ => "aa") none 0 "sess") "sess" = .ok true :=
  csrf_roundtrip_valid (fun _ _ => "aa") none 0 "sess" (by decide) (by decide)

/-- C5: a token whose embedded timestamp is more than 3,600,000 ms before the
validation clock is rejected for every session identifier, regardless of the
signature field. -/
theorem csrf_expired_rejected (hmac : String → String → String) (env : Option String)
    (now : Nat) (token tsStr sig sessionId : String) (ts : Int)
    (hsplit : jsSplit ':' token = [tsStr, sig])
    (hparse : jsParseInt tsStr = some ts)
    (hage : (now : Int) - ts > 60 * 60 * 1000) :
    validateCsrfToken hmac env now token sessionId = .ok false :=
  validate_expired_aux hmac env now token tsStr sig sessionId ts hsplit hparse hage

/-- Witness for C5: a token stamped at time 0 validated two hours later. -/
theorem csrf_expired_rejected_witness :
    validateCsrfToken (fun _ _ => "aa") none 7200000 "0:aa" "sess" = .ok false :=
  csrf_expired_rejected (fun _ _ => "aa") none 7200000 "0:aa" "0" "aa" "sess" 0
    (by decide) (by decide) (by decide)

/-- C6: a token issued for session B does not validate against a different
session A: the HMAC recomputed over the data of A differs from the supplied
signature (stated as a hypothesis on the abstract HMAC, which also has
fixed-length colon-free hex output), so the comparison reports false. -/
theorem csrf_cross_session_rejected (hmac : String → String → String) (env : Option String)
    (now tB : Nat) (sessionIdA sessionIdB : String)
    (hne : sessionIdA ≠ sessionIdB)
    (hsigB : ∀ c ∈ (hmac (envSecret env) (sessionIdB ++ ":" ++ natToString tB)).data, c ≠ ':')
    (hlen : (hmac (envSecret env) (sessionIdB ++ ":" ++ natToString tB)).utf8ByteSize
          = (hmac (envSecret env) (sessionIdA ++ ":" ++ natToString tB)).utf8ByteSize)
    (hdiff : hmac (envSecret env) (sessionIdB ++ ":" ++ natToString tB)
           ≠ hmac (envSecret env) (sessionIdA ++ ":" ++ natToString tB)) :
    validateCsrfToken hmac env now (generateCsrfToken hmac env tB sessionIdB) sessionIdA
      = .ok false := by
  have hts : ∀ c ∈ (natToString tB).data, c ≠ ':' := fun c hc =>
    isDigit_ne_colon (natToString_all_digits tB c hc)
  by_cases hage : (now : Int) - tB > 60 * 60 * 1000
  · exact validate_expired_aux hmac env now _ (natToString tB)
      (hmac (envSecret env) (sessionIdB ++ ":" ++ natToString tB)) sessionIdA tB
      (jsSplit_two_fields _ _ hts hsigB) (jsParseInt_natToString tB) hage
  · calc validateCsrfToken hmac env now (generateCsrfToken hmac env tB sessionIdB) sessionIdA
        = validateCsrfToken hmac env now
            (natToString tB ++ ":" ++ hmac (envSecret env) (sessionIdB ++ ":" ++ natToString tB))
            sessionIdA := rfl
      _ = timingSafeEqual (hmac (envSecret env) (sessionIdB ++ ":" ++ natToString tB))
            (hmac (envSecret env) (sessionIdA ++ ":" ++ natToString tB)) :=
          validate_wellformed hmac env now tB sessionIdA _ hsigB hage
      _ = .ok false := by
          unfold timingSafeEqual
          rw [if_pos hlen]
          simp [hdiff]

/-- Witness for C6 with a concrete injective-on-these-inputs HMAC stand-in. -/
theorem csrf_cross_session_rejected_witness :
    validateCsrfToken (fun _ d => if d = "b:0" then "bb" else "aa") none 0
      (generateCsrfToken (fun _ d => if d = "b:0" then "bb" else "aa") none 0 "b") "a"
      = .ok false :=
  csrf_cross_session_rejected (fun _ d => if d = "b:0" then "bb" else "aa") none 0 0 "a" "b"
    (by decide) (by decide) (by decide) (by decide)

/-- C10: when SESSION_SECRET is unset, both functions fall back to the fixed
public string "default-secret" (the environment is read on every call, which
the embedding reflects by passing it to each call): token generation signs
with it, and a token forged from it with any in-window timestamp validates as
genuine. -/
theorem csrf_default_secret (hmac : String → String → String) (now ts : Nat)
    (sessionId : String)
    (hsig : ∀ c ∈ (hmac "default-secret" (sessionId ++ ":" ++ natToString ts)).data, c ≠ ':')
    (hage : ¬ ((now : Int) - ts > 60 * 60 * 1000)) :
    generateCsrfToken hmac none now sessionId
      = natToString now ++ ":" ++ hmac "default-secret" (sessionId ++ ":" ++ natToString now)
    ∧ validateCsrfToken hmac none now
        (natToString ts ++ ":" ++ hmac "default-secret" (sessionId ++ ":" ++ natToString ts))
        sessionId
      = .ok true := by
  constructor
  · rfl
  · have h := validate_wellformed hmac none now ts sessionId
      (hmac "default-secret" (sessionId ++ ":" ++ natToString ts)) hsig hage
    rw [h]
    simp [timingSafeEqual, envSecret]

/-- Witness for C10: a forged token built from the public default secret. -/
theorem csrf_default_secret_witness :
    generateCsrfToken (fun _ _ => "aa") none 0 "sess"
      = natToString 0 ++ ":" ++ (fun _ _ => "aa") "default-secret" ("sess" ++ ":" ++ natToString 0)
    ∧ validateCsrfToken (fun _ _ => "aa") none 0
        (natToString 0 ++ ":" ++ (fun _ _ => "aa") "default-secret" ("sess" ++ ":" ++ natToString 0))
        "sess"
      = .ok true :=
  csrf_default_secret (fun _ _ => "aa") 0 0 "sess" (by decide) (by decide)

/-! ### Data model, from the shared drizzle schema

Two versions of the schema file are present in the repository; the embedding
follows the version with the extended threat-log columns and the uniqueness
constraint on the subscription owner (src/unnamed/part_005), which is the one
the rest of the repository compiles against: routes.ts translates the
Postgres unique-violation code 23505 raised by that constraint, and the
dashboard components render the extended columns.  Timestamps are
milliseconds since the epoch; a column declared without notNull becomes an
Option. -/

structure UserSubscription where
  id : String
  userId : String
  planId : String
  status : String
  billingCycle : String
  startDate : Option Int
  endDate : Option Int
  createdAt : Option Int
deriving DecidableEq

structure ThreatLog where
  id : String
  userId : String
  headType : String
  threatLevel : String
  description : String
  status : String
  source : Option String
  sourceType : Option String
  blockedContent : Option String
  reason : Option String
  ipAddress : Option String
  actionTaken : Option String
  detectedAt : Option Int
  resolvedAt : Option Int
deriving DecidableEq

structure ProtectionStatus where
  id : String
  userId : String
  deepfakeEnabled : Option Bool
  surveillanceEnabled : Option Bool
  containmentEnabled : Option Bool
  lastScanAt : Option Int
  threatsBlockedToday : Option Int
  updatedAt : Option Int
deriving DecidableEq

/-- A Partial insert payload for user_subscriptions, as accepted by
updateUserSubscription; a drizzle set clause updates only the supplied
columns. -/
structure UserSubscriptionPatch where
  userId : Option String := none
  planId : Option String := none
  status : Option String := none
  billingCycle : Option String := none
  startDate : Option (Option Int) := none
  endDate : Option (Option Int) := none
deriving DecidableEq

def applySubscriptionPatch (s : UserSubscription) (p : UserSubscriptionPatch) :
    UserSubscription :=
  { s with
    userId := p.userId.getD s.userId
    planId := p.planId.getD s.planId
    status := p.status.getD s.status
    billingCycle := p.billingCycle.getD s.billingCycle
    startDate := p.startDate.getD s.startDate
    endDate := p.endDate.getD s.endDate }

/-- A Partial insert payload for protection_status, as accepted by
updateProtectionStatus. -/
structure ProtectionStatusPatch where
  userId : Option String := none
  deepfakeEnabled : Option (Option Bool) := none
  surveillanceEnabled : Option (Option Bool) := none
  containmentEnabled : Option (Option Bool) := none
  lastScanAt : Option (Option Int) := none
  threatsBlockedToday : Option (Option Int) := none
deriving DecidableEq

def applyProtectionPatch (s : ProtectionStatus) (p : ProtectionStatusPatch) :
    ProtectionStatus :=
  { s with
    userId := p.userId.getD s.userId
    deepfakeEnabled := p.deepfakeEnabled.getD s.deepfakeEnabled
    surveillanceEnabled := p.surveillanceEnabled.getD s.surveillanceEnabled
    containmentEnabled := p.containmentEnabled.getD s.containmentEnabled
    lastScanAt := p.lastScanAt.getD s.lastScanAt
    threatsBlockedToday := p.threatsBlockedToday.getD s.threatsBlockedToday }

/-! ### The store operations, from src/server/storage.ts

A table is a list of rows; a drizzle select-where is a filter with the same
predicate; destructuring the first element of the result array is head-of-
list; update-set-where maps the set clause over the rows matched by the
where predicate and returns them; insert appends after the constraint checks
the schema declares, a violation being the error the caller translates to a
conflict. -/

/-- getUserSubscription: select from user_subscriptions where userId equals
the argument, first row. -/
def getUserSubscription (table : List UserSubscription) (userId : String) :
    Option UserSubscription :=
  (table.filter fun s => s.userId == userId).head?

/-- createUserSubscription: insert into user_subscriptions; the schema has a
primary key on id and a unique constraint on userId (src/unnamed/part_005
line 24), so an insert clashing on either is a constraint violation. -/
def createUserSubscription (table : List UserSubscription) (row : UserSubscription) :
    Except Unit (List UserSubscription × UserSubscription) :=
  if table.any fun s => s.id == row.id || s.userId == row.userId then .error ()
  else .ok (table ++ [row], row)

/-- updateUserSubscription: update user_subscriptions set data where the id
alone equals the argument; the pair is the new table and the first returned
row.  The predicate contains no owner. -/
def updateUserSubscription (table : List UserSubscription) (id : String)
    (data : UserSubscriptionPatch) : List UserSubscription × Option UserSubscription :=
  (table.map fun s => if s.id == id then applySubscriptionPatch s data else s,
   ((table.filter fun s => s.id == id).map fun s => applySubscriptionPatch s data).head?)

/-- Postgres descending order on the nullable detected_at column: later
timestamps first, null rows first (the Postgres default NULLS FIRST for a
descending sort key). -/
def descDetectedAt (a b : ThreatLog) : Bool :=
  match a.detectedAt, b.detectedAt with
  | none, _ => true
  | some _, none => false
  | some x, some y => y ≤ x

/-- Insertion of a row into a list ordered by descending detected_at. -/
def insertByDetectedAt (l : ThreatLog) : List ThreatLog → List ThreatLog
  | [] => [l]
  | x :: xs => if descDetectedAt l x then l :: x :: xs else x :: insertByDetectedAt l xs

/-- The orderBy(desc(threatLogs.detectedAt)) clause of storage.ts modelled as
a sort by the descending order. -/
def sortByDetectedAt : List ThreatLog → List ThreatLog
  | [] => []
  | x :: xs => insertByDetectedAt x (sortByDetectedAt xs)

/-- getThreatLogs: select from threat_logs where userId equals the argument,
ordered by descending detection time. -/
def getThreatLogs (table : List ThreatLog) (userId : String) : List ThreatLog :=
  sortByDetectedAt (table.filter fun l => l.userId == userId)

/-- getThreatLogById: select from threat_logs where the id alone equals the
argument.  The predicate contains no owner. -/
def getThreatLogById (table : List ThreatLog) (id : String) : Option ThreatLog :=
  (table.filter fun l => l.id == id).head?

/-- getThreatLogByIdAndUser: select where both the id and the userId match in
one conjunctive predicate. -/
def getThreatLogByIdAndUser (table : List ThreatLog) (id userId : String) :
    Option ThreatLog :=
  (table.filter fun l => l.id == id && l.userId == userId).head?

/-- updateThreatLogStatus: update threat_logs set status, with resolvedAt
stamped from the server clock when the new status is the string "resolved"
and cleared otherwise, where both id and userId match. -/
def updateThreatLogStatus (now : Int) (table : List ThreatLog) (id userId status : String) :
    List ThreatLog × Option ThreatLog :=
  (table.map fun l =>
     if l.id == id && l.userId == userId then
       { l with status := status
                resolvedAt := if status == "resolved" then some now else none }
     else l,
   ((table.filter fun l => l.id == id && l.userId == userId).map fun l =>
     { l with status := status
              resolvedAt := if status == "resolved" then some now else none }).head?)

/-- getProtectionStatus: select from protection_status where userId equals
the argument. -/
def getProtectionStatus (table : List ProtectionStatus) (userId : String) :
    Option ProtectionStatus :=
  (table.filter fun s => s.userId == userId).head?

/-- updateProtectionStatus: update protection_status set the supplied columns
plus a server-stamped updatedAt, where userId equals the argument. -/
def updateProtectionStatus (now : Int) (table : List ProtectionStatus) (userId : String)
    (data : ProtectionStatusPatch) : List ProtectionStatus × Option ProtectionStatus :=
  (table.map fun s =>
     if s.userId == userId then { applyProtectionPatch s data with updatedAt := some now }
     else s,
   ((table.filter fun s => s.userId == userId).map fun s =>
     { applyProtectionPatch s data with updatedAt := some now }).head?)

/-! ### Generic facts about filter, map and head used by the store claims -/

theorem filter_head_pred {α : Type} (p : α → Bool) (l : List α) (x : α)
    (h : (l.filter p).head? = some x) : x ∈ l ∧ p x = true := by
  cases hf : l.filter p with
  | nil => rw [hf] at h; simp at h
  | cons a t =>
    rw [hf] at h
    simp only [List.head?_cons, Option.some.injEq] at h
    subst h
    have hx : a ∈ l.filter p := by rw [hf]; exact List.mem_cons_self a t
    exact ⟨(List.mem_filter.mp hx).1, (List.mem_filter.mp hx).2⟩

theorem map_filter_head {α β : Type} (p : α → Bool) (f : α → β) (l : List α) (y : β)
    (h : ((l.filter p).map f).head? = some y) : ∃ x ∈ l, p x = true ∧ y = f x := by
  cases hf : l.filter p with
  | nil => rw [hf] at h; simp at h
  | cons a t =>
    rw [hf] at h
    simp only [List.map_cons, List.head?_cons, Option.some.injEq] at h
    have ha : a ∈ l.filter p := by rw [hf]; exact List.mem_cons_self a t
    exact ⟨a, (List.mem_filter.mp ha).1, (List.mem_filter.mp ha).2, h.symm⟩

/-- A conditional map leaves every row failing the condition untouched, row
by row. -/
theorem map_if_frame {α : Type} (q : α → Bool) (f : α → α) (l : List α) :
    List.Forall₂ (fun xOld xNew => q xOld = false → xNew = xOld) l
      (l.map fun x => if q x then f x else x) := by
  induction l with
  | nil => exact List.Forall₂.nil
  | cons a l ih =>
    refine List.Forall₂.cons ?_ ih
    intro hq
    simp [hq]

theorem map_if_id {α : Type} (q : α → Bool) (f : α → α) (l : List α)
    (h : ∀ x ∈ l, q x = false) : (l.map fun x => if q x then f x else x) = l := by
  induction l with
  | nil => rfl
  | cons a t ih =>
    simp only [List.map_cons]
    rw [ih fun x hx => h x (by simp [hx])]
    simp [h a (by simp)]

theorem mem_insertByDetectedAt {a l : ThreatLog} : ∀ {xs : List ThreatLog},
    a ∈ insertByDetectedAt l xs → a = l ∨ a ∈ xs := by
  intro xs
  induction xs with
  | nil =>
    intro h
    simp only [insertByDetectedAt] at h
    rcases List.mem_cons.mp h with h | h
    · exact Or.inl h
    · simp at h
  | cons x xs ih =>
    intro h
    simp only [insertByDetectedAt] at h
    by_cases hc : descDetectedAt l x = true
    · rw [if_pos hc] at h
      rcases List.mem_cons.mp h with h | h
      · exact Or.inl h
      · exact Or.inr h
    · rw [if_neg hc] at h
      rcases List.mem_cons.mp h with h | h
      · exact Or.inr (List.mem_cons.mpr (Or.inl h))
      · rcases ih h with h2 | h2
        · exact Or.inl h2
        · exact Or.inr (List.mem_cons.mpr (Or.inr h2))

theorem mem_sortByDetectedAt {a : ThreatLog} : ∀ {xs : List ThreatLog},
    a ∈ sortByDetectedAt xs → a ∈ xs := by
  intro xs
  induction xs with
  | nil => intro h; simp [sortByDetectedAt] at h
  | cons x xs ih =>
    intro h
    simp only [sortByDetectedAt] at h
    rcases mem_insertByDetectedAt h with h2 | h2
    · simp [h2]
    · exact List.mem_cons.mpr (Or.inr (ih h2))

/-- A sample threat-log row, owned by user U2, used by concrete witnesses. -/
def sampleLog : ThreatLog :=
  ⟨"t1", "U2", "deepfake", "high", "d", "detected",
   none, none, none, none, none, none, none, none⟩

/-- A sample subscription row, owned by user U2, used by concrete
witnesses. -/
def sampleSub : UserSubscription :=
  ⟨"s1", "U2", "p1", "active", "monthly", none, none, none⟩

/-! ### Claims about the ownership-scoped store -/

/-- C2 (amended): every store operation that takes an owner identifier puts
it inside the query predicate itself — getThreatLogs filters on userId and
only orders the result, getThreatLogByIdAndUser and updateThreatLogStatus
match id and userId conjointly, getUserSubscription, getProtectionStatus and
updateProtectionStatus filter on userId — so these operations never return a
row of another owner and never mutate a row of another owner.  (As originally
stated the claim is false: updateUserSubscription and getThreatLogById filter
on the record id alone and take no owner at all, see the counterexample;
updateUserSubscription is reached by its callers only after a separate
fetch-then-check, and getThreatLogById has no callers in the repository.) -/
theorem store_owner_scoped (now : Int) (tl : List ThreatLog)
    (subs : List UserSubscription) (ps : List ProtectionStatus)
    (id uid st : String) (pd : ProtectionStatusPatch) :
    (∀ l ∈ getThreatLogs tl uid, l.userId = uid)
    ∧ (∀ l, getThreatLogByIdAndUser tl id uid = some l → l.userId = uid)
    ∧ (∀ r, (updateThreatLogStatus now tl id uid st).2 = some r → r.userId = uid)
    ∧ List.Forall₂ (fun lOld lNew => lOld.userId ≠ uid → lNew = lOld) tl
        (updateThreatLogStatus now tl id uid st).1
    ∧ (∀ s, getUserSubscription subs uid = some s → s.userId = uid)
    ∧ (∀ s, getProtectionStatus ps uid = some s → s.userId = uid)
    ∧ List.Forall₂ (fun sOld sNew => sOld.userId ≠ uid → sNew = sOld) ps
        (updateProtectionStatus now ps uid pd).1 := by
  refine ⟨?_, ?_, ?_, ?_, ?_, ?_, ?_⟩
  · intro l hl
    have hl2 := List.mem_filter.mp (mem_sortByDetectedAt hl)
    simpa using hl2.2
  · intro l h
    have hp := (filter_head_pred _ tl l h).2
    simp only [Bool.and_eq_true, beq_iff_eq] at hp
    exact hp.2
  · intro r h
    obtain ⟨x, _, hx, hr⟩ := map_filter_head _ _ tl r h
    simp only [Bool.and_eq_true, beq_iff_eq] at hx
    rw [hr]
    exact hx.2
  · refine List.Forall₂.imp ?_
      (map_if_frame (fun l : ThreatLog => l.id == id && l.userId == uid)
        (fun l => { l with status := st
                           resolvedAt := if st == "resolved" then some now else none }) tl)
    intro a b hab hne
    apply hab
    simp [hne]
  · intro s h
    have hp := (filter_head_pred _ subs s h).2
    simpa using hp
  · intro s h
    have hp := (filter_head_pred _ ps s h).2
    simpa using hp
  · refine List.Forall₂.imp ?_
      (map_if_frame (fun s : ProtectionStatus => s.userId == uid)
        (fun s => { applyProtectionPatch s pd with updatedAt := some now }) ps)
    intro a b hab hne
    apply hab
    simp [hne]

/-- Witness for C2 (amended): the owner-filtered list read evaluated on a
concrete table. -/
theorem store_owner_scoped_witness : sampleLog.userId = "U2" :=
  (store_owner_scoped 0 [sampleLog] [] [] "t1" "U2" "resolved" {}).1 sampleLog (by decide)

/-- C2 counterexample: getThreatLogById and updateUserSubscription filter on
the record id alone, so a caller acting for user U1 that reaches them with
the id of a row owned by U2 receives, respectively mutates, the row of
U2. -/
theorem store_owner_filter_cx :
    (getThreatLogById [sampleLog] "t1").map ThreatLog.userId = some "U2"
    ∧ ((updateUserSubscription [sampleSub] "s1" { status := some "cancelled" }).1.map
        fun s => (s.userId, s.status)) = [("U2", "cancelled")]
    ∧ ("U2" : String) ≠ "U1" :=
  ⟨rfl, rfl, by decide⟩

/-- C3: the user_subscriptions table, in the schema version of
src/unnamed/part_005, carries a uniqueness constraint on userId: starting
from a table with no row for the owner, of two create calls for the same
owner the first insert succeeds and the second observes the constraint
conflict, leaving exactly one row for that owner. -/
theorem subscription_unique_per_owner (t : List UserSubscription)
    (r1 r2 : UserSubscription)
    (howner : r2.userId = r1.userId)
    (hfree : ∀ s ∈ t, s.userId ≠ r1.userId)
    (hid : ∀ s ∈ t, s.id ≠ r1.id) :
    createUserSubscription t r1 = .ok (t ++ [r1], r1)
    ∧ createUserSubscription (t ++ [r1]) r2 = .error ()
    ∧ ((t ++ [r1]).filter fun s => s.userId == r1.userId).length = 1 := by
  refine ⟨?_, ?_, ?_⟩
  · have hcond : (t.any fun s => s.id == r1.id || s.userId == r1.userId) = false := by
      simp only [List.any_eq_false]
      intro s hs
      simp [hid s hs, hfree s hs]
    simp [createUserSubscription, hcond]
  · have hcond : ((t ++ [r1]).any fun s => s.id == r2.id || s.userId == r2.userId) = true := by
      rw [List.any_eq_true]
      exact ⟨r1, by simp, by simp [howner]⟩
    simp [createUserSubscription, hcond]
  · rw [List.filter_append]
    have h1 : (t.filter fun s => s.userId == r1.userId) = [] := by
      rw [List.filter_eq_nil_iff]
      intro s hs
      simp [hfree s hs]
    rw [h1]
    simp

/-- Witness for C3: two concrete creates for the same owner. -/
theorem subscription_unique_per_owner_witness :
    createUserSubscription []
        (⟨"s1", "U1", "p1", "active", "monthly", none, none, none⟩ : UserSubscription)
      = .ok ([⟨"s1", "U1", "p1", "active", "monthly", none, none, none⟩],
             ⟨"s1", "U1", "p1", "active", "monthly", none, none, none⟩)
    ∧ createUserSubscription [⟨"s1", "U1", "p1", "active", "monthly", none, none, none⟩]
        ⟨"s2", "U1", "p2", "active", "yearly", none, none, none⟩
      = .error ()
    ∧ ((([] : List UserSubscription)
          ++ [(⟨"s1", "U1", "p1", "active", "monthly", none, none, none⟩ : UserSubscription)]).filter
        fun s => s.userId == "U1").length = 1 :=
  subscription_unique_per_owner []
    ⟨"s1", "U1", "p1", "active", "monthly", none, none, none⟩
    ⟨"s2", "U1", "p2", "active", "yearly", none, none, none⟩
    rfl (by simp) (by simp)

/-- C7: getThreatLogByIdAndUser returns absent when a row with the requested
id exists but belongs to a different owner, and this outcome is the same
value as for any table in which no row has that id at all. -/
theorem threatlog_cross_owner_absent (t : List ThreatLog) (id uid : String)
    (hexists : ∃ l ∈ t, l.id = id)
    (hother : ∀ l ∈ t, l.id = id → l.userId ≠ uid) :
    getThreatLogByIdAndUser t id uid = none
    ∧ ∀ u : List ThreatLog, (∀ l ∈ u, l.id ≠ id) →
        getThreatLogByIdAndUser t id uid = getThreatLogByIdAndUser u id uid := by
  have hnil : (t.filter fun l => l.id == id && l.userId == uid) = [] := by
    rw [List.filter_eq_nil_iff]
    intro l hl
    simp only [Bool.and_eq_true, beq_iff_eq, not_and]
    exact fun h1 h2 => hother l hl h1 h2
  constructor
  · unfold getThreatLogByIdAndUser
    rw [hnil]
    rfl
  · intro u hu
    have hnil2 : (u.filter fun l => l.id == id && l.userId == uid) = [] := by
      rw [List.filter_eq_nil_iff]
      intro l hl
      simp only [Bool.and_eq_true, beq_iff_eq, not_and]
      exact fun h1 => absurd h1 (hu l hl)
    unfold getThreatLogByIdAndUser
    rw [hnil, hnil2]

/-- Witness for C7 on a one-row table owned by U2, probed by U1. -/
theorem threatlog_cross_owner_absent_witness :
    getThreatLogByIdAndUser [sampleLog] "t1" "U1" = none
    ∧ ∀ u : List ThreatLog, (∀ l ∈ u, l.id ≠ "t1") →
        getThreatLogByIdAndUser [sampleLog] "t1" "U1" = getThreatLogByIdAndUser u "t1" "U1" :=
  threatlog_cross_owner_absent [sampleLog] "t1" "U1"
    ⟨sampleLog, by simp, rfl⟩
    (by intro l hl h1; simp at hl; subst hl; decide)

/-- C8: on a matching id and owner pair, the update stamps the row and the
returned record with a server-clock resolvedAt exactly when the new status is
the string "resolved", and stores null for every other status; a matching row
guarantees a returned record. -/
theorem threatlog_resolvedAt_stamp (now : Int) (t : List ThreatLog) (id uid st : String) :
    (∀ r, (updateThreatLogStatus now t id uid st).2 = some r →
        r.resolvedAt = if st = "resolved" then some now else none)
    ∧ (∀ l ∈ (updateThreatLogStatus now t id uid st).1, l.id = id → l.userId = uid →
        l.resolvedAt = if st = "resolved" then some now else none)
    ∧ ((∃ l ∈ t, l.id = id ∧ l.userId = uid) →
        ∃ r, (updateThreatLogStatus now t id uid st).2 = some r) := by
  have hpatch : ∀ l : ThreatLog,
      ({ l with status := st
                resolvedAt := if st == "resolved" then some now else none } : ThreatLog).resolvedAt
        = if st = "resolved" then some now else none := by
    intro l
    by_cases hst : st = "resolved"
    · simp [hst]
    · simp [hst]
  refine ⟨?_, ?_, ?_⟩
  · intro r h
    obtain ⟨x, _, _, hr⟩ := map_filter_head _ _ t r h
    rw [hr]
    exact hpatch x
  · intro l hl hlid hluid
    obtain ⟨x, hx, hfx⟩ := List.mem_map.mp hl
    by_cases hcond : (x.id == id && x.userId == uid) = true
    · rw [if_pos hcond] at hfx
      rw [← hfx]
      exact hpatch x
    · rw [if_neg hcond] at hfx
      subst hfx
      simp [hlid, hluid] at hcond
  · rintro ⟨l, hl, h1, h2⟩
    cases hf : (t.filter fun l => l.id == id && l.userId == uid) with
    | nil =>
      exfalso
      have hmem : l ∈ t.filter fun l => l.id == id && l.userId == uid :=
        List.mem_filter.mpr ⟨hl, by simp [h1, h2]⟩
      rw [hf] at hmem
      simp at hmem
    | cons a t2 =>
      refine ⟨({ a with status := st
                        resolvedAt := if st == "resolved" then some now else none } : ThreatLog), ?_⟩
      show ((t.filter fun l => l.id == id && l.userId == uid).map fun l =>
          ({ l with status := st
                    resolvedAt := if st == "resolved" then some now else none } : ThreatLog)).head?
        = some ({ a with status := st
                         resolvedAt := if st == "resolved" then some now else none } : ThreatLog)
      rw [hf]
      rfl

/-- Witness for C8: a resolve and a non-resolve patch on a concrete row
owned by U2. -/
theorem threatlog_resolvedAt_stamp_witness :
    ({ sampleLog with status := "resolved", resolvedAt := some 5 } : ThreatLog).resolvedAt
      = (if ("resolved" : String) = "resolved" then some (5 : Int) else none)
    ∧ ({ sampleLog with status := "blocked", resolvedAt := none } : ThreatLog).resolvedAt
      = (if ("blocked" : String) = "resolved" then some (7 : Int) else none) :=
  ⟨(threatlog_resolvedAt_stamp 5 [sampleLog] "t1" "U2" "resolved").1
      { sampleLog with status := "resolved", resolvedAt := some 5 } (by decide),
   (threatlog_resolvedAt_stamp 7 [sampleLog] "t1" "U2" "blocked").1
      { sampleLog with status := "blocked", resolvedAt := none } (by decide)⟩

/-- C9: an update requested by an identity that does not own the row with the
requested id returns absent and leaves the whole table unchanged. -/
theorem threatlog_update_cross_owner_noop (now : Int) (t : List ThreatLog)
    (id uid st : String)
    (hother : ∀ l ∈ t, l.id = id → l.userId ≠ uid) :
    updateThreatLogStatus now t id uid st = (t, none) := by
  have hq : ∀ l ∈ t, (l.id == id && l.userId == uid) = false := by
    intro l hl
    by_cases h1 : l.id = id
    · simp [hother l hl h1]
    · simp [h1]
  have hnil : (t.filter fun l => l.id == id && l.userId == uid) = [] := by
    rw [List.filter_eq_nil_iff]
    intro l hl
    simp [hq l hl]
  unfold updateThreatLogStatus
  rw [map_if_id _ _ t hq, hnil]
  rfl

/-- Witness for C9: user U1 patching the row of U2 changes nothing. -/
theorem threatlog_update_cross_owner_noop_witness :
    updateThreatLogStatus 5 [sampleLog] "t1" "U1" "resolved" = ([sampleLog], none) :=
  threatlog_update_cross_owner_noop 5 [sampleLog] "t1" "U1" "resolved"
    (by intro l hl h1; simp at hl; subst hl; decide)

end Cerberus
